import Mathlib

/-!
Verification development for `ami_usage_interactive.py`, a one-shot AMI
usage audit: it lists the caller's owned machine images, indexes which
images are referenced by live instances, partitions the image list into
USED and UNUSED, prints a report and optionally exports it as CSV.

The Python functions are shallowly embedded below. Provider records
arrive as dynamic dictionaries, so optional fields are modelled with
`Option String`; the paginated listings are modelled as the flattened
sequences the core logic iterates over. Python dictionaries preserve
key-insertion order, so the usage index (a `defaultdict(list)`) is
modelled as an association list in which a new key is appended at the
end and a repeated key appends to its existing bucket.
-/

namespace AmiUsage

/-- Instance triple `(instance_id, instance_name, state)`, matching `InstanceInfo` in the script. -/
abbrev InstanceInfo := String × String × String

/-- Image triple `(image_id, name, creation_date)`, matching `AmiInfo` in the script. -/
abbrev AmiInfo := String × String × String

/-- The usage index: image id → instances using that AMI, in insertion order. -/
abbrev Usage := List (String × List InstanceInfo)

/-- A raw image record from `describe_images`: every field may be absent. -/
structure RawImage where
  imageId : Option String
  name : Option String
  creationDate : Option String
  deriving DecidableEq, Repr

/-- A raw tag `{Key, Value}` on an instance: both fields may be absent. -/
structure RawTag where
  key : Option String
  value : Option String
  deriving DecidableEq, Repr

/-- A raw instance record from `describe_instances`. `stateName` models the
composite access `(inst.get('State') or {}).get('Name', '-')`: it is `none`
exactly when that expression falls back to the `'-'` default (State absent,
falsy, or lacking a Name key). -/
structure RawInstance where
  stateName : Option String
  imageId : Option String
  instanceId : Option String
  tags : List RawTag
  deriving DecidableEq, Repr

/-- Models the Python idiom `x or '-'`: an absent or empty (falsy) string
becomes the placeholder `"-"`. -/
def orDash : Option String → String
  | none => "-"
  | some s => if s = "" then "-" else s

/-- One normalized image row, from lines 101–104 of the script:
`ImageId` uses `dict.get` with default `'-'` (an empty string is kept),
while `Name` and `CreationDate` use `or '-'` (empty also becomes `'-'`). -/
def mkAmi (img : RawImage) : AmiInfo :=
  (img.imageId.getD "-", orDash img.name, orDash img.creationDate)

/-- Python's string comparison: lexicographic on the code-point sequences
(embedded as the lexicographic order on the strings' character lists). -/
def strLe (a b : String) : Prop := a.data ≤ b.data

instance : DecidableRel strLe := fun a b => inferInstanceAs (Decidable (a.data ≤ b.data))

/-- The sort relation of `images.sort(key=lambda x: x[2])`: ascending
lexical comparison of the creation-date strings. -/
def amiLe (a b : AmiInfo) : Prop := strLe a.2.2 b.2.2

instance : DecidableRel amiLe := fun a b => inferInstanceAs (Decidable (strLe a.2.2 b.2.2))

instance : IsTotal AmiInfo amiLe := ⟨fun a b => le_total a.2.2.data b.2.2.data⟩

instance : IsTrans AmiInfo amiLe := ⟨fun _ _ _ h h' => le_trans h h'⟩

/-- Embeds `fetch_owned_amis`: normalize every image record, then sort ascending by
creation date (Python `list.sort` is a stable ascending sort; `insertionSort`
is the corresponding stable sort). -/
def fetch_owned_amis (imgs : List RawImage) : List AmiInfo :=
  List.insertionSort amiLe (imgs.map mkAmi)

/-- The set `excluded_states = {'terminated', 'shutting-down'}` (line 116). -/
def excludedStates : List String := ["terminated", "shutting-down"]

/-- The state string the loop computes for an instance (line 120). -/
def instState (i : RawInstance) : String := i.stateName.getD "-"

/-- Name-tag extraction, lines 128–132: scan the tag list in order and take
the value of the first tag whose `Key` is exactly `"Name"` and whose `Value`
is present and non-empty (truthy); otherwise `"-"`. -/
def tagName : List RawTag → String
  | [] => "-"
  | t :: rest =>
      if t.key = some "Name" ∧ t.value.getD "" ≠ "" then t.value.getD "" else tagName rest

/-- The triple appended for a qualifying instance (lines 126–133). -/
def triple (i : RawInstance) : InstanceInfo :=
  (i.instanceId.getD "-", tagName i.tags, instState i)

/-- The key an instance is indexed under: its `ImageId` when present and
non-empty (`if not image_id: continue` drops both `None` and `""`). -/
def keyOf (i : RawInstance) : Option String :=
  match i.imageId with
  | none => none
  | some s => if s = "" then none else some s

/-- Association-list lookup, modelling `usage[image_id]` on an existing key. -/
def lookupUsage : Usage → String → Option (List InstanceInfo)
  | [], _ => none
  | (k, v) :: rest, x => if k = x then some v else lookupUsage rest x

/-- Key-membership test, modelling `image_id in usage`. -/
def memUsage (m : Usage) (x : String) : Bool := (lookupUsage m x).isSome

/-- Embeds `mapping[image_id].append(t)` on a `defaultdict(list)`: append to the
bucket of an existing key, else append a fresh singleton bucket at the end
(dict key-insertion order). -/
def insertUsage : Usage → String → InstanceInfo → Usage
  | [], k, t => [(k, [t])]
  | (k', v) :: rest, k, t =>
      if k' = k then (k', v ++ [t]) :: rest else (k', v) :: insertUsage rest k t

/-- The body of the instance loop (lines 120–133) applied to one record. -/
def step (m : Usage) (i : RawInstance) : Usage :=
  if instState i ∈ excludedStates then m
  else
    match keyOf i with
    | none => m
    | some k => insertUsage m k (triple i)

/-- Embeds `fetch_instances`: fold the loop body over the flattened instance
sequence, starting from an empty mapping. -/
def fetch_instances (insts : List RawInstance) : Usage :=
  insts.foldl step []

/-- What one instance contributes under key `x`: `some` of its triple when it
survives the state exclusion and is keyed by `x`, else `none`. -/
def contrib (x : String) (i : RawInstance) : Option InstanceInfo :=
  if instState i ∈ excludedStates then none
  else
    match keyOf i with
    | none => none
    | some k => if k = x then some (triple i) else none

/-- The used partition: images whose id is a key of the usage index, in image
order (the loop filter of `print_used`, line 155, also used for the CSV). -/
def usedPartition (amis : List AmiInfo) (usage : Usage) : List AmiInfo :=
  amis.filter fun a => memUsage usage a.1

/-- The unused partition: images whose id is not a key of the usage index, in
image order (the comprehension of `print_unused`, line 169). -/
def unusedPartition (amis : List AmiInfo) (usage : Usage) : List AmiInfo :=
  amis.filter fun a => !(memUsage usage a.1)

/-- The display-time sort relation on instance triples: ascending instance
identifier, `sorted(usage[image_id], key=lambda x: x[0])`. -/
def instLe (a b : InstanceInfo) : Prop := strLe a.1 b.1

instance : DecidableRel instLe := fun a b => inferInstanceAs (Decidable (strLe a.1 b.1))

instance : IsTotal InstanceInfo instLe := ⟨fun a b => le_total a.1.data b.1.data⟩

instance : IsTrans InstanceInfo instLe := ⟨fun _ _ _ h h' => le_trans h h'⟩

/-- Embeds `sorted(..., key=lambda x: x[0])`: stable ascending sort by instance id. -/
def sortInstances (l : List InstanceInfo) : List InstanceInfo :=
  List.insertionSort instLe l

/-- The line printed for one instance of a used AMI (line 159). -/
def instLine (t : InstanceInfo) : String :=
  "  - " ++ t.1 ++ " (" ++ t.2.1 ++ ") - " ++ t.2.2

/-- The header line printed for one used AMI (line 157). -/
def amiHeaderLine (a : AmiInfo) : String :=
  "\nAMI: " ++ a.1 ++ " - " ++ a.2.1 ++ " (Created: " ++ a.2.2 ++ ")"

/-- Embeds `print_used`, as the sequence of strings passed to `print`: the section
heading, then for every image of the list whose id is in the index its header
followed by its instances sorted by instance id, and `"(none)"` when no image
was used. -/
def print_used_lines (amis : List AmiInfo) (usage : Usage) : List String :=
  ["\n1. USED AMIs (with instances):", "================================"]
    ++ (amis.flatMap fun a =>
          match lookupUsage usage a.1 with
          | some insts => amiHeaderLine a :: (sortInstances insts).map instLine
          | none => [])
    ++ (if usedPartition amis usage = [] then ["(none)"] else [])

/-- Embeds `s.ljust(w)`: pad on the right with spaces to width `w`. -/
def ljust (s : String) (w : Nat) : String :=
  s ++ String.mk (List.replicate (w - s.length) ' ')

/-- Embeds `compute_widths(rows, mins=(22, 40, 24))`: per-column maximum of the
minimum width and the longest value. -/
def compute_widths (rows : List (String × String × String)) : Nat × Nat × Nat :=
  rows.foldl
    (fun w r => (max w.1 r.1.length, max w.2.1 r.2.1.length, max w.2.2 r.2.2.length))
    (22, 40, 24)

/-- Embeds `print_unused`, as the sequence of strings passed to `print`: heading,
then `"(none)"` for an empty unused set, else an aligned table with a header
row, a dash separator of the header's length, and one row per unused image. -/
def print_unused_lines (amis : List AmiInfo) (usage : Usage) : List String :=
  ["\n\n2. UNUSED AMIs (no instances):", "================================"]
    ++ (let unused := unusedPartition amis usage
        if unused = [] then ["(none)"]
        else
          let w := compute_widths unused
          let hdr := ljust "AMI ID" w.1 ++ " " ++ ljust "AMI Name" w.2.1 ++ " "
              ++ ljust "Creation Date" w.2.2
          hdr :: String.mk (List.replicate hdr.length '-')
            :: unused.map fun a =>
                 ljust a.1 w.1 ++ " " ++ ljust a.2.1 w.2.1 ++ " " ++ ljust a.2.2 w.2.2)

/-- The console report of a successful run: the used section followed by the
unused section (lines 219–220). -/
def consoleReport (amis : List AmiInfo) (usage : Usage) : List String :=
  print_used_lines amis usage ++ print_unused_lines amis usage

/-- The fixed CSV header row (line 188). -/
def csvHeader : List String :=
  ["section", "ami_id", "ami_name", "creation_date", "instance_id", "instance_name", "state"]

/-- One `USED` CSV data row (line 192). -/
def usedRow (a : AmiInfo) (t : InstanceInfo) : List String :=
  ["USED", a.1, a.2.1, a.2.2, t.1, t.2.1, t.2.2]

/-- One `UNUSED` CSV data row (line 194). -/
def unusedRow (a : AmiInfo) : List String :=
  ["UNUSED", a.1, a.2.1, a.2.2, "", "", ""]

/-- The full sequence of rows `maybe_write_csv` hands to the CSV writer:
header first, then, iterating images in list order, one `USED` row per
indexed instance of a used image (in the bucket's stored order, unsorted)
and one `UNUSED` row per unused image. -/
def csvRows (amis : List AmiInfo) (usage : Usage) : List (List String) :=
  csvHeader
    :: (amis.flatMap fun a =>
          match lookupUsage usage a.1 with
          | some insts => insts.map (usedRow a)
          | none => [unusedRow a])

/-- Embeds `maybe_write_csv`, which opens the destination with mode `"w"` (truncate):
modelled as a function from the previous file contents to the new contents,
`none` meaning no write happens (no path supplied). -/
def maybe_write_csv (path : Option String) (amis : List AmiInfo) (usage : Usage)
    (oldContents : Option (List (List String))) : Option (List (List String)) :=
  match path with
  | none => oldContents
  | some _ => some (csvRows amis usage)

/-- The errors that can escape the pipeline inside `main`'s `try` block:
a boto provider/transport error, a keyboard interrupt, or an I/O error
raised by the CSV export (an `OSError` is none of the caught classes). -/
inductive PipeError where
  | provider (msg : String)
  | interrupted
  | exportFailure (msg : String)
  deriving DecidableEq, Repr

/-- How a run of `main` terminates: `exitCode` via `sys.exit`/normal return,
or `uncaught` when an exception matches no `except` clause and propagates. -/
inductive Outcome where
  | exitCode (n : Nat)
  | uncaught (e : PipeError)
  deriving DecidableEq, Repr

/-- Embeds the exception dispatch of `main` (lines 214–227): a caught provider error
exits 2, a caught interrupt exits 130, a normal return exits 0, and an
export I/O error matches neither `except` clause, so it propagates. -/
def dispatch : Except PipeError Unit → Outcome
  | .ok _ => .exitCode 0
  | .error (.provider _) => .exitCode 2
  | .error .interrupted => .exitCode 130
  | .error (.exportFailure m) => .uncaught (.exportFailure m)

/-- The body of `main`'s `try` block, staged as in the source: the two
fetches (each may fail with a provider error or an interrupt), then the
console report, then the optional export (which may fail with an I/O
error). Returns the strings printed so far paired with the outcome. -/
def runMain (fetchImages : Except PipeError (List RawImage))
    (fetchInsts : Except PipeError (List RawInstance))
    (path : Option String) (exportResult : Except String Unit) :
    List String × Outcome :=
  match fetchImages with
  | .error e => ([], dispatch (.error e))
  | .ok imgs =>
    match fetchInsts with
    | .error e => ([], dispatch (.error e))
    | .ok insts =>
      let amis := fetch_owned_amis imgs
      let usage := fetch_instances insts
      let console := consoleReport amis usage
      match path with
      | none => (console, dispatch (.ok ()))
      | some _ =>
        match exportResult with
        | .ok _ => (console, dispatch (.ok ()))
        | .error m => (console, dispatch (.error (.exportFailure m)))

/-! ### Helper lemmas about the usage index -/

theorem lookupUsage_insertUsage (m : Usage) (k : String) (t : InstanceInfo) (x : String) :
    lookupUsage (insertUsage m k t) x =
      if k = x then some ((lookupUsage m x).getD [] ++ [t]) else lookupUsage m x := by
  induction m with
  | nil =>
      by_cases h : k = x <;> simp [insertUsage, lookupUsage, h]
  | cons p rest ih =>
      obtain ⟨k', v⟩ := p
      by_cases h1 : k' = k
      · subst h1
        by_cases h2 : k' = x <;> simp [insertUsage, lookupUsage, h2]
      · by_cases h2 : k' = x
        · subst h2
          have hkx : ¬ k = k' := fun h => h1 h.symm
          simp [insertUsage, lookupUsage, h1, hkx]
        · simp [insertUsage, lookupUsage, h1, h2, ih]

theorem lookupUsage_step (m : Usage) (i : RawInstance) (x : String) :
    lookupUsage (step m i) x =
      match contrib x i with
      | none => lookupUsage m x
      | some t => some ((lookupUsage m x).getD [] ++ [t]) := by
  unfold step contrib
  by_cases hs : instState i ∈ excludedStates
  · simp [hs]
  · simp only [if_neg hs]
    cases hk : keyOf i with
    | none => simp
    | some k =>
        by_cases hx : k = x
        · subst hx; simp [lookupUsage_insertUsage]
        · simp [hx, lookupUsage_insertUsage]

theorem lookupUsage_foldl (insts : List RawInstance) :
    ∀ (m : Usage) (x : String),
      lookupUsage (List.foldl step m insts) x =
        if insts.filterMap (contrib x) = [] then lookupUsage m x
        else some ((lookupUsage m x).getD [] ++ insts.filterMap (contrib x)) := by
  induction insts with
  | nil => intro m x; simp
  | cons i rest ih =>
      intro m x
      rw [List.foldl_cons, ih, List.filterMap_cons]
      cases hc : contrib x i with
      | none =>
          rw [lookupUsage_step, hc]
      | some t =>
          have hstep : lookupUsage (step m i) x = some ((lookupUsage m x).getD [] ++ [t]) := by
            rw [lookupUsage_step, hc]
          by_cases hr : rest.filterMap (contrib x) = []
          · simp [hr, hstep]
          · simp [hr, hstep, List.append_assoc]

theorem lookupUsage_fetch_instances (insts : List RawInstance) (x : String) :
    lookupUsage (fetch_instances insts) x =
      if insts.filterMap (contrib x) = [] then none
      else some (insts.filterMap (contrib x)) := by
  unfold fetch_instances
  rw [lookupUsage_foldl]
  simp [lookupUsage]

theorem memUsage_fetch_instances (insts : List RawInstance) (x : String) :
    memUsage (fetch_instances insts) x = true ↔
      ∃ i ∈ insts, (contrib x i).isSome = true := by
  unfold memUsage
  rw [lookupUsage_fetch_instances]
  by_cases h : insts.filterMap (contrib x) = []
  · simp only [if_pos h, Option.isSome_none]
    rw [List.filterMap_eq_nil_iff] at h
    constructor
    · intro hfalse; exact absurd hfalse (by simp)
    · rintro ⟨i, hi, hsome⟩
      rw [h i hi] at hsome
      exact absurd hsome (by simp)
  · simp only [if_neg h, Option.isSome_some, true_iff]
    obtain ⟨t, ht⟩ := List.exists_mem_of_ne_nil _ h
    obtain ⟨i, hi, hci⟩ := List.mem_filterMap.1 ht
    exact ⟨i, hi, by rw [hci]; rfl⟩

theorem step_of_excluded (m : Usage) (i : RawInstance)
    (h : instState i ∈ excludedStates) : step m i = m := by
  unfold step
  rw [if_pos h]

theorem fetch_instances_drop_excluded (pre post : List RawInstance) (i : RawInstance)
    (h : instState i ∈ excludedStates) :
    fetch_instances (pre ++ i :: post) = fetch_instances (pre ++ post) := by
  unfold fetch_instances
  rw [List.foldl_append, List.foldl_append, List.foldl_cons, step_of_excluded _ _ h]

theorem keyOf_eq_some_iff (i : RawInstance) (x : String) :
    keyOf i = some x ↔ (i.imageId = some x ∧ x ≠ "") := by
  unfold keyOf
  cases h : i.imageId with
  | none => simp
  | some s =>
      by_cases hs : s = ""
      · subst hs
        simp only [if_pos rfl]
        constructor
        · intro hfalse; exact absurd hfalse (by simp)
        · rintro ⟨hsx, hne⟩
          exact absurd (Option.some_injective _ hsx).symm hne
      · simp only [if_neg hs, Option.some_inj]
        constructor
        · rintro rfl; exact ⟨rfl, hs⟩
        · rintro ⟨hsx, _⟩; exact hsx

theorem contrib_isSome_iff (x : String) (i : RawInstance) :
    (contrib x i).isSome = true ↔
      (instState i ∉ excludedStates ∧ i.imageId = some x ∧ x ≠ "") := by
  rw [show (i.imageId = some x ∧ x ≠ "") = (keyOf i = some x) from
        propext (keyOf_eq_some_iff i x).symm]
  unfold contrib
  by_cases hs : instState i ∈ excludedStates
  · simp [hs]
  · simp only [if_neg hs]
    cases hk : keyOf i with
    | none => simp [hs]
    | some k =>
        by_cases hx : k = x
        · subst hx; simp [hs]
        · simp [hx]

/-! ### Claim theorems -/

/-- C1, partition totality: for every image list and usage index, each image
of the list lies in exactly one of the two partitions (in the used partition
iff its identifier is a key of the index, in the unused one otherwise), the
two partitions concatenated are a permutation of the list (union equals the
list as a set and as a multiset, so nothing is duplicated or dropped), and
no value lies in both partitions. -/
theorem claim_C1_partition_totality (amis : List AmiInfo) (usage : Usage) :
    (∀ a ∈ amis,
        (a ∈ usedPartition amis usage ∧ a ∉ unusedPartition amis usage) ∨
        (a ∈ unusedPartition amis usage ∧ a ∉ usedPartition amis usage)) ∧
    (usedPartition amis usage ++ unusedPartition amis usage).Perm amis ∧
    (∀ a, ¬(a ∈ usedPartition amis usage ∧ a ∈ unusedPartition amis usage)) := by
  refine ⟨?_, List.filter_append_perm _ amis, ?_⟩
  · intro a ha
    by_cases h : memUsage usage a.1 = true
    · left
      refine ⟨List.mem_filter.2 ⟨ha, h⟩, fun hmem => ?_⟩
      have hb := (List.mem_filter.1 hmem).2
      simp [h] at hb
    · right
      refine ⟨List.mem_filter.2 ⟨ha, by simp [h]⟩, fun hmem => ?_⟩
      exact h (List.mem_filter.1 hmem).2
  · rintro a ⟨h1, h2⟩
    have b1 := (List.mem_filter.1 h1).2
    have b2 := (List.mem_filter.1 h2).2
    simp [b1] at b2

/-- Witness for C1 at a one-image list whose image is used. -/
theorem claim_C1_partition_totality_witness :
    (("ami-1", "base", "2024-01-01") ∈
        usedPartition [("ami-1", "base", "2024-01-01")]
          [("ami-1", [("i-1", "app1", "running")])] ∧
      ("ami-1", "base", "2024-01-01") ∉
        unusedPartition [("ami-1", "base", "2024-01-01")]
          [("ami-1", [("i-1", "app1", "running")])]) ∨
    (("ami-1", "base", "2024-01-01") ∈
        unusedPartition [("ami-1", "base", "2024-01-01")]
          [("ami-1", [("i-1", "app1", "running")])] ∧
      ("ami-1", "base", "2024-01-01") ∉
        usedPartition [("ami-1", "base", "2024-01-01")]
          [("ami-1", [("i-1", "app1", "running")])]) :=
  (claim_C1_partition_totality [("ami-1", "base", "2024-01-01")]
      [("ami-1", [("i-1", "app1", "running")])]).1
    ("ami-1", "base", "2024-01-01") (by decide)

/-- C2, usage-index membership: the bucket the index stores under key `x` is
exactly the sequence of contributions of the input instances (so a triple is
stored under `x` iff some instance contributes it there); an instance
contributes under `x` iff its state avoids the exclusion set and it carries a
present, non-empty image identifier equal to `x`; the index has key `x` iff
some input instance contributes under `x`; every stored bucket is non-empty;
and an instance whose state is excluded is dropped from the whole index
regardless of its other fields. -/
theorem claim_C2_usage_index_membership (insts : List RawInstance) (x : String) :
    (lookupUsage (fetch_instances insts) x =
        if insts.filterMap (contrib x) = [] then none
        else some (insts.filterMap (contrib x))) ∧
    (∀ i : RawInstance,
        (contrib x i).isSome = true ↔
          (instState i ∉ excludedStates ∧ i.imageId = some x ∧ x ≠ "")) ∧
    (memUsage (fetch_instances insts) x = true ↔
        ∃ i ∈ insts, (contrib x i).isSome = true) ∧
    (∀ l, lookupUsage (fetch_instances insts) x = some l → l ≠ []) ∧
    (∀ (pre post : List RawInstance) (i : RawInstance),
        instState i ∈ excludedStates →
        fetch_instances (pre ++ i :: post) = fetch_instances (pre ++ post)) := by
  refine ⟨lookupUsage_fetch_instances insts x, contrib_isSome_iff x,
    memUsage_fetch_instances insts x, ?_, fetch_instances_drop_excluded⟩
  intro l hl
  rw [lookupUsage_fetch_instances insts x] at hl
  by_cases h : insts.filterMap (contrib x) = []
  · rw [if_pos h] at hl
    exact absurd hl (by simp)
  · rw [if_neg h] at hl
    intro hl0
    exact h (by rw [Option.some_inj.1 hl, hl0])

/-- Witness for C2: a terminated instance referencing an image leaves the
index exactly as it was without that instance. -/
theorem claim_C2_usage_index_membership_witness :
    fetch_instances
        [⟨some "terminated", some "ami-1", some "i-9", []⟩] = fetch_instances [] := by
  have h := (claim_C2_usage_index_membership [] "ami-1").2.2.2.2
    [] [] ⟨some "terminated", some "ami-1", some "i-9", []⟩ (by decide)
  simpa using h

/-- C3, order preservation by the classifier: both partitions are sublists
(order-preserving subsequences) of the image list, and merging them back,
i.e. concatenating and permuting into image order, reproduces exactly the
image list (the classifier performs no re-sorting). -/
theorem claim_C3_order_preservation (amis : List AmiInfo) (usage : Usage) :
    (usedPartition amis usage).Sublist amis ∧
    (unusedPartition amis usage).Sublist amis ∧
    (usedPartition amis usage ++ unusedPartition amis usage).Perm amis :=
  ⟨List.filter_sublist amis, List.filter_sublist amis,
    List.filter_append_perm _ amis⟩

/-- C4, image-list sort order: the list handed to the classifier is sorted
ascending by the creation-date string under lexical (code-point) comparison,
it is a permutation of the normalized records (the value sorted on is the
value displayed, since each record is carried whole), and a record with a
missing or empty creation date gets the placeholder `"-"` as its date, which
then participates in the same lexical sort. -/
theorem claim_C4_image_sort (imgs : List RawImage) :
    List.Sorted amiLe (fetch_owned_amis imgs) ∧
    (fetch_owned_amis imgs).Perm (imgs.map mkAmi) ∧
    (∀ img : RawImage, img.creationDate = none ∨ img.creationDate = some "" →
        (mkAmi img).2.2 = "-") := by
  refine ⟨List.sorted_insertionSort amiLe _, List.perm_insertionSort amiLe _, ?_⟩
  intro img h
  rcases h with h | h <;> simp [mkAmi, orDash, h]

/-- Witness for C4: an image record with no creation date renders and sorts
with the placeholder date. -/
theorem claim_C4_image_sort_witness :
    (mkAmi ⟨some "ami-9", some "x", none⟩).2.2 = "-" :=
  (claim_C4_image_sort []).2.2 ⟨some "ami-9", some "x", none⟩ (Or.inl rfl)

/-- C5, totality under malformed input: the embedding of indexing and
classification is built from total functions, so no input record can raise;
a missing image identifier, image name or creation date is substituted by
`"-"` in the image row (the image identifier via `get`'s default, the other
two via `or '-'`); an instance record with an absent image identifier is
silently dropped by the indexing step; and a missing instance identifier,
state, or Name tag is substituted by `"-"` in the stored triple. -/
theorem claim_C5_placeholder_totality :
    (∀ img : RawImage,
        (img.imageId = none → (mkAmi img).1 = "-") ∧
        (img.name = none → (mkAmi img).2.1 = "-") ∧
        (img.creationDate = none → (mkAmi img).2.2 = "-")) ∧
    (∀ (m : Usage) (i : RawInstance), i.imageId = none → step m i = m) ∧
    (∀ i : RawInstance,
        (i.instanceId = none → (triple i).1 = "-") ∧
        (i.stateName = none → (triple i).2.2 = "-") ∧
        (i.tags = [] → (triple i).2.1 = "-")) := by
  refine ⟨?_, ?_, ?_⟩
  · intro img
    refine ⟨fun h => ?_, fun h => ?_, fun h => ?_⟩ <;> simp [mkAmi, orDash, h]
  · intro m i h
    unfold step keyOf
    rw [h]
    split <;> rfl
  · intro i
    refine ⟨fun h => ?_, fun h => ?_, fun h => ?_⟩ <;>
      simp [triple, instState, tagName, h]

/-- Witness for C5: an image record with every field absent normalizes to a
row of placeholders. -/
theorem claim_C5_placeholder_totality_witness :
    (mkAmi ⟨none, none, none⟩).1 = "-" :=
  (claim_C5_placeholder_totality.1 ⟨none, none, none⟩).1 rfl

/-- C6, CSV export shape: without a destination the file contents are left
untouched, with one they are fully overwritten by the computed rows whatever
they were before; the first row is the exact header
`section,ami_id,ami_name,creation_date,instance_id,instance_name,state`;
iterating images in image-list order, each used image contributes one `USED`
row per indexed instance and each unused image one `UNUSED` row with three
empty instance fields, so the row count is one plus the sum over images; in
particular one used image with a single instance plus one unused image yields
the header plus exactly two data rows. -/
theorem claim_C6_csv_export (amis : List AmiInfo) (usage : Usage)
    (old : Option (List (List String))) :
    (maybe_write_csv none amis usage old = old) ∧
    (∀ p : String, maybe_write_csv (some p) amis usage old = some (csvRows amis usage)) ∧
    ((csvRows amis usage).head? =
        some ["section", "ami_id", "ami_name", "creation_date", "instance_id",
          "instance_name", "state"]) ∧
    (∀ (a : AmiInfo) (rest : List AmiInfo),
        csvRows (a :: rest) usage =
          csvHeader ::
            ((match lookupUsage usage a.1 with
              | some l => l.map (usedRow a)
              | none => [unusedRow a]) ++ (csvRows rest usage).tail)) ∧
    ((csvRows amis usage).length =
        1 + (amis.map fun a =>
              match lookupUsage usage a.1 with
              | some l => l.length
              | none => 1).sum) ∧
    (csvRows [("ami-1", "base", "2024-01-01"), ("ami-2", "web", "2024-02-01")]
        [("ami-1", [("i-1", "app1", "running")])] =
      [["section", "ami_id", "ami_name", "creation_date", "instance_id",
          "instance_name", "state"],
       ["USED", "ami-1", "base", "2024-01-01", "i-1", "app1", "running"],
       ["UNUSED", "ami-2", "web", "2024-02-01", "", "", ""]]) := by
  refine ⟨rfl, fun _ => rfl, rfl, ?_, ?_, by decide⟩
  · intro a rest
    simp only [csvRows, List.flatMap_cons, List.tail_cons]
  · simp only [csvRows, List.length_cons, List.length_flatMap, Nat.add_comm]
    congr 1
    apply congrArg List.sum
    apply List.map_congr_left
    intro a _
    cases h : lookupUsage usage a.1 <;> simp [h]

/-- Witness for C6 at a concrete one-used, one-unused input. -/
theorem claim_C6_csv_export_witness :
    maybe_write_csv (some "out.csv")
        [("ami-1", "base", "2024-01-01")] [("ami-1", [("i-1", "app1", "running")])]
        (some [["stale"]]) =
      some (csvRows [("ami-1", "base", "2024-01-01")]
        [("ami-1", [("i-1", "app1", "running")])]) :=
  (claim_C6_csv_export [("ami-1", "base", "2024-01-01")]
      [("ami-1", [("i-1", "app1", "running")])] (some [["stale"]])).2.1 "out.csv"

/-- C7, error handling and exit codes: a provider error from either fetch is
caught and ends the run with exit code 2 (its message on the error stream);
an interrupt raised in the guarded pipeline ends it with exit code 130; a
run whose stages all succeed exits 0; and an export I/O failure matches
neither handled exception class, so it propagates uncaught while the console
report, printed before the export step, is exactly the report of the
successful run. -/
theorem claim_C7_exit_codes :
    (∀ (m : String) (fI : Except PipeError (List RawInstance))
        (p : Option String) (er : Except String Unit),
        runMain (.error (.provider m)) fI p er = ([], .exitCode 2)) ∧
    (∀ (imgs : List RawImage) (m : String) (p : Option String)
        (er : Except String Unit),
        runMain (.ok imgs) (.error (.provider m)) p er = ([], .exitCode 2)) ∧
    (∀ (fI : Except PipeError (List RawInstance)) (p : Option String)
        (er : Except String Unit),
        runMain (.error .interrupted) fI p er = ([], .exitCode 130)) ∧
    (∀ (imgs : List RawImage) (p : Option String) (er : Except String Unit),
        runMain (.ok imgs) (.error .interrupted) p er = ([], .exitCode 130)) ∧
    (∀ (imgs : List RawImage) (insts : List RawInstance) (er : Except String Unit),
        runMain (.ok imgs) (.ok insts) none er =
          (consoleReport (fetch_owned_amis imgs) (fetch_instances insts),
            .exitCode 0)) ∧
    (∀ (imgs : List RawImage) (insts : List RawInstance) (pth : String),
        runMain (.ok imgs) (.ok insts) (some pth) (.ok ()) =
          (consoleReport (fetch_owned_amis imgs) (fetch_instances insts),
            .exitCode 0)) ∧
    (∀ (imgs : List RawImage) (insts : List RawInstance) (pth : String)
        (m : String),
        runMain (.ok imgs) (.ok insts) (some pth) (.error m) =
          (consoleReport (fetch_owned_amis imgs) (fetch_instances insts),
            .uncaught (.exportFailure m))) :=
  ⟨fun _ _ _ _ => rfl, fun _ _ _ _ => rfl, fun _ _ _ => rfl, fun _ _ _ => rfl,
    fun _ _ _ => rfl, fun _ _ _ => rfl, fun _ _ _ _ => rfl⟩

/-- C8, instance ordering: the bucket stored under any key is the input
subsequence of contributions in arrival (pagination) order, with no re-sort
at indexing time; the display sort is ascending by instance identifier and
only permutes a bucket; a used image's console block is its header line
followed by its instances so sorted; and when no image is used the used
section is exactly the heading followed by the `"(none)"` marker. -/
theorem claim_C8_instance_ordering (insts : List RawInstance) (x : String)
    (amis : List AmiInfo) (usage : Usage) :
    (lookupUsage (fetch_instances insts) x =
        if insts.filterMap (contrib x) = [] then none
        else some (insts.filterMap (contrib x))) ∧
    (∀ l : List InstanceInfo,
        List.Sorted instLe (sortInstances l) ∧ (sortInstances l).Perm l) ∧
    (∀ (a : AmiInfo) (l : List InstanceInfo), lookupUsage usage a.1 = some l →
        print_used_lines [a] usage =
          ["\n1. USED AMIs (with instances):", "================================",
            amiHeaderLine a] ++ (sortInstances l).map instLine) ∧
    (usedPartition amis usage = [] →
        print_used_lines amis usage =
          ["\n1. USED AMIs (with instances):", "================================",
            "(none)"]) := by
  refine ⟨lookupUsage_fetch_instances insts x,
    fun l => ⟨List.sorted_insertionSort instLe l, List.perm_insertionSort instLe l⟩,
    ?_, ?_⟩
  · intro a l hl
    simp [print_used_lines, usedPartition, memUsage, hl]
  · intro h
    have hall : ∀ a ∈ amis, lookupUsage usage a.1 = none := by
      intro a ha
      have hmem := (List.filter_eq_nil_iff.1 h) a ha
      simpa [memUsage, Option.not_isSome_iff_eq_none] using hmem
    have hbody : (amis.flatMap fun a =>
        match lookupUsage usage a.1 with
        | some insts => amiHeaderLine a :: (sortInstances insts).map instLine
        | none => []) = [] := by
      apply List.flatMap_eq_nil_iff.2
      intro a ha
      rw [hall a ha]
    simp [print_used_lines, h, hbody]

/-- Witness for C8 at a one-image list with an empty usage index. -/
theorem claim_C8_instance_ordering_witness :
    print_used_lines [("ami-2", "web", "2024-02-01")] [] =
      ["\n1. USED AMIs (with instances):", "================================",
        "(none)"] :=
  (claim_C8_instance_ordering [] "" [("ami-2", "web", "2024-02-01")] []).2.2.2
    (by decide)

/-- C9, implicit — CSV instance order differs from console order: for a used
image the CSV writes its bucket in index (insertion) order, unsorted, while
the console sorts the same bucket by instance identifier; on a bucket whose
two instances arrive in descending identifier order, the CSV identifier
column reads i-2 then i-1 while the console block lists i-1 then i-2, so the
CSV order differs from the console (sorted) order. -/
theorem claim_C9_csv_vs_console_order :
    (∀ (usage : Usage) (a : AmiInfo) (l : List InstanceInfo),
        lookupUsage usage a.1 = some l →
        csvRows [a] usage = csvHeader :: l.map (usedRow a)) ∧
    (csvRows [("ami-1", "n", "d")]
        [("ami-1", [("i-2", "b", "running"), ("i-1", "a", "running")])] =
      [csvHeader,
       ["USED", "ami-1", "n", "d", "i-2", "b", "running"],
       ["USED", "ami-1", "n", "d", "i-1", "a", "running"]]) ∧
    (print_used_lines [("ami-1", "n", "d")]
        [("ami-1", [("i-2", "b", "running"), ("i-1", "a", "running")])] =
      ["\n1. USED AMIs (with instances):", "================================",
        amiHeaderLine ("ami-1", "n", "d"),
        instLine ("i-1", "a", "running"), instLine ("i-2", "b", "running")]) ∧
    (((csvRows [("ami-1", "n", "d")]
          [("ami-1", [("i-2", "b", "running"), ("i-1", "a", "running")])]).drop 1).map
        (fun r => r.getD 4 "") ≠
      ((sortInstances [("i-2", "b", "running"), ("i-1", "a", "running")]).map
        fun t => t.1)) := by
  refine ⟨?_, by decide, by decide, by decide⟩
  intro usage a l hl
  simp [csvRows, hl]

/-- Witness for C9: a one-instance bucket is exported as the header plus its
single `USED` row. -/
theorem claim_C9_csv_vs_console_order_witness :
    csvRows [("x", "y", "z")] [("x", [("i", "n", "s")])] =
      csvHeader :: [usedRow ("x", "y", "z") ("i", "n", "s")] :=
  claim_C9_csv_vs_console_order.1 [("x", [("i", "n", "s")])] ("x", "y", "z")
    [("i", "n", "s")] (by decide)

/-- The claim's description of name resolution, for comparison with the
code's `tagName`: the first tag in the tag list's order whose key is exactly
`"Name"` and whose value is present and non-empty. -/
def firstNameTag (tags : List RawTag) : Option RawTag :=
  tags.find? fun t => decide (t.key = some "Name" ∧ t.value.getD "" ≠ "")

/-- C10, implicit — Name-tag resolution: the resolved display name is the
value of the first tag in list order whose key is exactly `"Name"` and whose
value is present and non-empty; a `"Name"` tag with an empty or absent value
is skipped, and when no tag qualifies the name is the placeholder `"-"`; the
qualifying predicate is exactly key `= "Name"` with some non-empty value. -/
theorem claim_C10_name_tag_resolution (tags : List RawTag) :
    (tagName tags =
        match firstNameTag tags with
        | some t => t.value.getD ""
        | none => "-") ∧
    (∀ t : RawTag,
        (decide (t.key = some "Name" ∧ t.value.getD "" ≠ "") = true) ↔
          (t.key = some "Name" ∧ ∃ v, t.value = some v ∧ v ≠ "")) := by
  constructor
  · induction tags with
    | nil => rfl
    | cons t rest ih =>
        by_cases h : t.key = some "Name" ∧ t.value.getD "" ≠ ""
        · simp [tagName, firstNameTag, h]
        · simp only [tagName, if_neg h, ih]
          simp [firstNameTag, List.find?_cons, h]
  · intro t
    cases hv : t.value with
    | none => simp [hv]
    | some v => by_cases hvv : v = "" <;> simp [hv, hvv]

end AmiUsage
